import Mathlib

/-!
Verification of the TMM post-to-audio pipeline.

Shallow embedding of the core pipeline of the repository:
the post Scorer/Selector (src/services/reddit/client.ts, analyzer part),
the TTS failover manager (src/unnamed/part_004), the text formatter
(src/unnamed/part_005) and the orchestrator
(src/services/orchestration/post-to-audio.ts).

JavaScript strings are modelled as `List Char`; JavaScript numbers are
modelled as `ℚ` where the source only performs rational arithmetic and as
`ℝ` where it calls `Math.log10`.
-/

set_option maxHeartbeats 1000000

namespace TMM

/-! ### Character-level utilities (JavaScript string primitives) -/

def isWs (c : Char) : Bool := c.isWhitespace

/-- Number of maximal whitespace-free runs of a character list.  For a
trimmed non-empty string this is exactly the length of the array returned
by the JavaScript expression `text.split(/\s+/)`.  The flag is true when
the previous character was whitespace (or at the start). -/
def countRunsAux : Bool → List Char → Nat
  | _, [] => 0
  | b, c :: cs =>
    if isWs c then countRunsAux true cs
    else (if b then 1 else 0) + countRunsAux false cs

def countRuns (l : List Char) : Nat := countRunsAux true l

/-- Remove trailing whitespace. -/
def trimEnd : List Char → List Char
  | [] => []
  | c :: cs =>
    match trimEnd cs with
    | [] => if isWs c then [] else [c]
    | r => c :: r

/-- Model of `String.prototype.trim`. -/
def trimStr (l : List Char) : List Char := trimEnd (l.dropWhile isWs)

/-- Model of a JavaScript `text.split(/X+/)` for a character class `X`:
parts between maximal runs of characters satisfying `p`, with an empty
leading (resp. trailing) part when the string starts (resp. ends) with
such a run, and `[""]` for the empty string.  `inRun` records whether we
are inside a separator run, `cur` accumulates the current part reversed. -/
def splitRunsAux (p : Char → Bool) : Bool → List Char → List Char → List (List Char)
  | _, cur, [] => [cur.reverse]
  | inRun, cur, c :: cs =>
    if p c then
      if inRun then splitRunsAux p true [] cs
      else cur.reverse :: splitRunsAux p true [] cs
    else splitRunsAux p false (c :: cur) cs

def jsSplitOnRuns (p : Char → Bool) (l : List Char) : List (List Char) :=
  splitRunsAux p false [] l

/-- Model of `text.split(/\s+/)`. -/
def jsSplitWs (l : List Char) : List (List Char) := jsSplitOnRuns isWs l

/-- Model of `Array.prototype.join(' ')`. -/
def joinSp : List (List Char) → List Char
  | [] => []
  | [w] => w
  | w :: ws => w ++ ' ' :: joinSp ws

/-- Word counter of the analyzer (src/services/reddit/client.ts, countWords):
`if (!text || text.trim().length === 0) return 0;
 return text.trim().split(/\s+/).length;`. -/
def countWords (l : List Char) : Nat :=
  if trimStr l = [] then 0 else countRuns (trimStr l)

/-- Word counter of the formatter (src/unnamed/part_005, countWords):
`text.trim().split(/\s+/).length` with no empty-string guard, so the empty
string counts as one word (JS `''.split(/\s+/)` is `['']`). -/
def countWordsF (l : List Char) : Nat :=
  if trimStr l = [] then 1 else countRuns (trimStr l)

/-! URL matching, modelling the regex `/https?:\/\/\S+/g`. -/

/-- Complete a URL match: `head` is the already-matched scheme, the greedy
`\S+` takes the maximal non-whitespace run of the remainder (at least one
character). Returns the match and the rest of the input. -/
def urlFrom (head : List Char) (r2 : List Char) : Option (List Char × List Char) :=
  let body := r2.takeWhile (fun c => !(isWs c))
  if body = [] then none
  else some (head ++ body, r2.drop body.length)

/-- Try to match `/https?:\/\/\S+/` at the start of the input. -/
def tryMatchUrl : List Char → Option (List Char × List Char)
  | 'h' :: 't' :: 't' :: 'p' :: 's' :: ':' :: '/' :: '/' :: r2 =>
    urlFrom ['h', 't', 't', 'p', 's', ':', '/', '/'] r2
  | 'h' :: 't' :: 't' :: 'p' :: ':' :: '/' :: '/' :: r2 =>
    urlFrom ['h', 't', 't', 'p', ':', '/', '/'] r2
  | _ => none

/-- Scan for all matches of `/https?:\/\/\S+/g`, resuming after each match
as the JavaScript regex engine does.  The fuel argument (initialised with
the length of the input, which strictly bounds the number of scanning
steps) keeps the recursion structural. -/
def findUrlAux : Nat → List Char → List (List Char)
  | 0, _ => []
  | _, [] => []
  | fuel + 1, c :: cs =>
    match tryMatchUrl (c :: cs) with
    | some (m, rest) => m :: findUrlAux fuel rest
    | none => findUrlAux fuel cs

def findUrlMatches (l : List Char) : List (List Char) := findUrlAux l.length l

/-- Model of `(text.match(/https?:\/\/\S+/g) || []).join('').length`. -/
def urlJoinedLen (l : List Char) : Nat := ((findUrlMatches l).map List.length).sum

/-- Model of `text.startsWith('http')`. -/
def startsWithHttp : List Char → Bool
  | 'h' :: 't' :: 't' :: 'p' :: _ => true
  | _ => false

/-! Paragraph splitting, modelling `text.split(/\n\s*\n/)`.  A match of
the regex starts at a newline and, thanks to the greedy backtracking
`\s*`, extends to the last newline of the maximal whitespace run that
begins there. -/

/-- Index of the last newline of a list, if any. -/
def lastNlIdx : List Char → Option Nat
  | [] => none
  | c :: cs =>
    match lastNlIdx cs with
    | some i => some (i + 1)
    | none => if c = '\n' then some 0 else none

def splitParasAux : Nat → List Char → List Char → List (List Char)
  | _, cur, [] => [cur.reverse]
  | 0, cur, rest => [cur.reverse ++ rest]
  | fuel + 1, cur, c :: cs =>
    if c = '\n' then
      match lastNlIdx (((c :: cs).takeWhile isWs).drop 1) with
      | some i => cur.reverse :: splitParasAux fuel [] ((c :: cs).drop (i + 2))
      | none => splitParasAux fuel (c :: cur) cs
    else splitParasAux fuel (c :: cur) cs

/-- Model of `text.split(/\n\s*\n/)`. -/
def splitParas (l : List Char) : List (List Char) := splitParasAux l.length [] l

/-- Characters ending a sentence, the class `[.!?]`. -/
def isSentEnd (c : Char) : Bool := c = '.' || c = '!' || c = '?'

/-! ### Data model -/

/-- A Reddit post as transformed by the client (src/types/reddit.ts).
Text fields that the scorer analyses character by character are
`List Char`; `score` and `num_comments` are integer counts; `created_utc`
is a Unix timestamp in seconds. -/
structure RedditPost where
  id : String
  title : List Char
  author : String
  score : ℤ
  num_comments : ℤ
  created_utc : ℝ
  selftext : List Char
  permalink : String
  subreddit : String

/-- Scoring result (interface PostScore of the analyzer). -/
structure PostScore where
  post : RedditPost
  engagementScore : ℝ
  textLength : Nat
  contentQuality : ℚ
  totalScore : ℝ

/-! ### Scorer (POST_SELECTION_CONFIG and PostAnalyzerService) -/

def lengthMin : Nat := 50
def lengthIdealMin : Nat := 100
def lengthIdealMax : Nat := 500
def lengthMax : Nat := 800
def wordsPerMinute : Nat := 150
def maxDurationSeconds : Nat := 90

/-- Model of getPostAgeHours: `Math.max(ageSeconds / 3600, 0.1)` where the
caller passes the current Unix time in seconds. -/
noncomputable def getPostAgeHours (now : ℝ) (created_utc : ℝ) : ℝ :=
  max ((now - created_utc) / 3600) 0.1

/-- Model of calculateEngagementScore:
`raw = (score + comments * 0.3) / ageHours;
 return Math.min(Math.log10(raw + 1) / 3, 1)`. -/
noncomputable def calculateEngagementScore (now : ℝ) (post : RedditPost) : ℝ :=
  let ageHours := getPostAgeHours now post.created_utc
  let rawEngagement := ((post.score : ℝ) + (post.num_comments : ℝ) * 0.3) / ageHours
  min (Real.logb 10 (rawEngagement + 1) / 3) 1

/-- Model of calculateTextLengthScore over the configured bounds. -/
def calculateTextLengthScore (wordCount : Nat) : ℚ :=
  if wordCount = 0 then 0
  else if wordCount < lengthMin then (wordCount : ℚ) / (lengthMin : ℚ) * 0.3
  else if lengthIdealMin ≤ wordCount ∧ wordCount ≤ lengthIdealMax then 1
  else if wordCount < lengthIdealMin then
    0.3 + ((wordCount : ℚ) - (lengthMin : ℚ)) / ((lengthIdealMin : ℚ) - (lengthMin : ℚ)) * 0.7
  else if wordCount ≤ lengthMax then
    1 - ((wordCount : ℚ) - (lengthIdealMax : ℚ)) / ((lengthMax : ℚ) - (lengthIdealMax : ℚ)) * 0.5
  else 0.3

/-- Model of calculateContentQuality: base 0.5, paragraph and sentence
bonuses, penalties for the uppercase proportion above 0.3 and for more
than two URLs, clamped into the unit interval. -/
def calculateContentQuality (text : List Char) : ℚ :=
  if trimStr text = [] then 0
  else
    let base : ℚ := 0.5
    let s1 :=
      if 1 < ((splitParas text).filter (fun p => trimStr p ≠ [])).length
      then base + 0.2 else base
    let s2 :=
      if 2 < ((jsSplitOnRuns isSentEnd text).filter (fun p => trimStr p ≠ [])).length
      then s1 + 0.15 else s1
    let s3 :=
      if ((text.filter (fun c => decide ('A' ≤ c) && decide (c ≤ 'Z'))).length : ℚ)
          / (text.length : ℚ) > 0.3
      then s2 - 0.2 else s2
    let s4 := if 2 < (findUrlMatches text).length then s3 - 0.15 else s3
    max 0 (min 1 s4)

/-- Model of hasUsableTextContent: at least ten words of combined
title and body, and a body that starts (after trimming) with `http`
whose URL matches cover more than 80 percent of the body is rejected. -/
def hasUsableTextContent (post : RedditPost) : Bool :=
  let text := trimStr (post.title ++ ' ' :: post.selftext)
  let wordCount := countWords text
  if wordCount < 10 then false
  else if post.selftext ≠ [] ∧ startsWithHttp (trimStr post.selftext) then
    if (urlJoinedLen post.selftext : ℚ) / (post.selftext.length : ℚ) > 0.8
    then false else true
  else true

/-- Model of scorePost.  Note that the stored `textLength` field is the
raw word count while the weighted total uses the length score. -/
noncomputable def scorePost (now : ℝ) (post : RedditPost) : PostScore :=
  let fullText := post.title ++ ' ' :: post.selftext
  let wordCount := countWords fullText
  let engagement := calculateEngagementScore now post
  let lengthScore := calculateTextLengthScore wordCount
  let quality := calculateContentQuality fullText
  { post := post
    engagementScore := engagement
    textLength := wordCount
    contentQuality := quality
    totalScore := engagement * 0.4 + (lengthScore : ℝ) * 0.3 + (quality : ℝ) * 0.3 }

/-- Insertion step of a stable descending sort on `totalScore`: the
element being inserted originates earlier in the input than the already
sorted suffix, so on ties it is placed first. -/
noncomputable def insertScoreDesc (x : PostScore) : List PostScore → List PostScore
  | [] => [x]
  | y :: ys => if y.totalScore ≤ x.totalScore then x :: y :: ys else y :: insertScoreDesc x ys

/-- Model of `scoredPosts.sort((a, b) => b.totalScore - a.totalScore)`.
ECMAScript guarantees `Array.prototype.sort` is stable, and for a
consistent comparator the stable sorted permutation is unique, so a
stable insertion sort computes the same list. -/
noncomputable def sortByTotalDesc : List PostScore → List PostScore
  | [] => []
  | x :: xs => insertScoreDesc x (sortByTotalDesc xs)

/-- Model of selectBestPost: guard on the empty batch, filter by
hasUsableTextContent, score the survivors, stable descending sort on the
total score and return the head. -/
noncomputable def selectBestPost (now : ℝ) (posts : List RedditPost) : Option PostScore :=
  if posts.length = 0 then none
  else
    let usable := posts.filter hasUsableTextContent
    if usable.length = 0 then none
    else (sortByTotalDesc (usable.map (scorePost now))).head?

/-! ### Spec-side definition for claim C6 -/

/-- The piecewise length-score formula exactly as the specification
states it, to be compared with `calculateTextLengthScore`. -/
def textLengthScoreSpec (w : Nat) : ℚ :=
  if w = 0 then 0
  else if w < 50 then (w : ℚ) / 50 * 0.3
  else if w < 100 then 0.3 + ((w : ℚ) - 50) / 50 * 0.7
  else if w ≤ 500 then 1
  else if w ≤ 800 then 1 - ((w : ℚ) - 500) / 300 * 0.5
  else 0.3

/-! ### TTS failover manager (src/unnamed/part_004)

The external providers are nondeterministic; a `ProviderModel` fixes one
behaviour: the result of the k-th `isAvailable` probe and of the k-th
`generateSpeech` call.  `generateWithRetry` and `generateAudio` are then
deterministic functions of the provider behaviours, and they additionally
return a trace (number of probe and synthesis calls, backoff delays
awaited) so that theorems can speak about the retry budget spent. -/

def maxAttempts : Nat := 3
def initialDelayMs : Nat := 1000
def maxDelayMs : Nat := 5000
def backoffMultiplier : Nat := 2

/-- Model of waitWithBackoff: the delay awaited for a given attempt,
`Math.min(initialDelay * multiplier ^ (attempt - 1), maxDelay)`. -/
def backoffDelay (attempt : Nat) : Nat :=
  min (initialDelayMs * backoffMultiplier ^ (attempt - 1)) maxDelayMs

/-- Outcome of one `generateSpeech` call: success with audio bytes, an
ElevenLabsError/InworldError carrying an HTTP status code, or any other
thrown error (network failure, plain `Error`, ...). -/
inductive SpeechResult where
  | success (audio : List Nat)
  | providerError (status : Nat)
  | genericFailure
deriving DecidableEq

structure ProviderModel where
  name : String
  avail : Nat → Bool
  speech : Nat → SpeechResult

/-- The error finally thrown out of generateWithRetry: either a provider
error with its status code, or a plain error. -/
inductive RetryError where
  | provider (status : Nat)
  | generic
deriving DecidableEq

deriving instance DecidableEq for Except

structure RetryTrace where
  result : Except RetryError (List Nat)
  speechCalls : Nat
  availCalls : Nat
  waits : List Nat
deriving DecidableEq

/-- Model of the retry loop of generateWithRetry, indexed by the attempt
counter.  The fuel argument (4 is enough for the loop bounds 1..3 plus
the exit) keeps the recursion structural; the `Option RetryError`
argument is the `lastError` variable.

Per iteration: an unavailable provider raises a plain `Error`, which is
not an ElevenLabs/Inworld error, so it reaches the generic wait-and-retry
path; a 401/403 provider error is re-thrown at once; a 429 provider error
before the last attempt awaits one extra backoff cycle (for attempt+1)
and continues; every other failure awaits the standard backoff when
attempts remain.  When the loop ends, `lastError` (or a fallback plain
error) is thrown. -/
def retryGo (p : ProviderModel) : Nat → Nat → Option RetryError → RetryTrace
  | 0, _, lastError =>
    { result := .error (lastError.getD .generic), speechCalls := 0, availCalls := 0, waits := [] }
  | fuel + 1, attempt, lastError =>
    if maxAttempts < attempt then
      { result := .error (lastError.getD .generic), speechCalls := 0, availCalls := 0, waits := [] }
    else if p.avail attempt = false then
      let rest := retryGo p fuel (attempt + 1) (some .generic)
      { result := rest.result
        speechCalls := rest.speechCalls
        availCalls := rest.availCalls + 1
        waits := (if attempt < maxAttempts then [backoffDelay attempt] else []) ++ rest.waits }
    else
      match p.speech attempt with
      | .success audio =>
        { result := .ok audio, speechCalls := 1, availCalls := 1, waits := [] }
      | .providerError s =>
        if s = 401 ∨ s = 403 then
          { result := .error (.provider s), speechCalls := 1, availCalls := 1, waits := [] }
        else if s = 429 ∧ attempt < maxAttempts then
          let rest := retryGo p fuel (attempt + 1) (some (.provider s))
          { result := rest.result
            speechCalls := rest.speechCalls + 1
            availCalls := rest.availCalls + 1
            waits := backoffDelay (attempt + 1) :: rest.waits }
        else
          let rest := retryGo p fuel (attempt + 1) (some (.provider s))
          { result := rest.result
            speechCalls := rest.speechCalls + 1
            availCalls := rest.availCalls + 1
            waits := (if attempt < maxAttempts then [backoffDelay attempt] else []) ++ rest.waits }
      | .genericFailure =>
        let rest := retryGo p fuel (attempt + 1) (some .generic)
        { result := rest.result
          speechCalls := rest.speechCalls + 1
          availCalls := rest.availCalls + 1
          waits := (if attempt < maxAttempts then [backoffDelay attempt] else []) ++ rest.waits }

def generateWithRetry (p : ProviderModel) : RetryTrace :=
  retryGo p (maxAttempts + 1) 1 none

structure AudioGenResult where
  audioBuffer : List Nat
  provider : String
  voice : String
  duration : Nat
  sizeBytes : Nat
deriving DecidableEq

structure TTSServiceError where
  code : String
deriving DecidableEq

structure FormattedText where
  text : List Char
  wordCount : Nat
  estimatedDuration : Nat
deriving DecidableEq

def elevenLabsVoiceId : String := "21m00Tcm4TlvDq8ikWAM"
def inworldCharacter : String := "narrator_01"

/-- The voice recorded in the result, chosen from the provider name as in
generateAudio. -/
def voiceFor (name : String) : String :=
  if name = "elevenlabs" then elevenLabsVoiceId
  else if name = "inworld" then inworldCharacter
  else "unknown"

structure GenTrace where
  result : Except TTSServiceError AudioGenResult
  traces : List (String × RetryTrace)

/-- Model of the provider loop of generateAudio: try each provider in
order through generateWithRetry; on success build the result (with the
duration taken from the formatted text estimate and the size from the
returned buffer); once every provider has failed, throw
ALL_PROVIDERS_FAILED. -/
def generateAudioGo (fmt : FormattedText) : List ProviderModel → GenTrace
  | [] => { result := .error { code := "ALL_PROVIDERS_FAILED" }, traces := [] }
  | p :: rest =>
    let t := generateWithRetry p
    match t.result with
    | .ok audio =>
      { result := .ok { audioBuffer := audio
                        provider := p.name
                        voice := voiceFor p.name
                        duration := fmt.estimatedDuration
                        sizeBytes := audio.length }
        traces := [(p.name, t)] }
    | .error _ =>
      let g := generateAudioGo fmt rest
      { result := g.result, traces := (p.name, t) :: g.traces }

/-! ### Text formatter (src/unnamed/part_005)

cleanMarkdown and addPauses are pure string transforms the specification
treats as an external collaborator; they are parameters of the model.
The word counting, duration estimation and truncation are embedded. -/

structure FormatterFns where
  cleanMarkdown : List Char → List Char
  addPauses : List Char → List Char

/-- Model of estimateDuration: `Math.ceil((wordCount / 150) * 60)`. -/
def estimateDurationF (wordCount : Nat) : Nat :=
  Nat.ceil ((wordCount : ℚ) / (wordsPerMinute : ℚ) * 60)

/-- Model of `String.prototype.lastIndexOf` for a single character:
the index of its last occurrence, or -1. -/
def lastIndexOfChar (c : Char) : List Char → ℤ
  | [] => -1
  | x :: xs =>
    let r := lastIndexOfChar c xs
    if 0 ≤ r then r + 1 else if x = c then 0 else -1

/-- Model of truncateToMaxDuration: split on whitespace runs, keep the
first maxWords words, then prefer cutting at the last sentence boundary
when it lies past 70 percent of the truncated text, otherwise append an
ellipsis. -/
def truncateToMaxDuration (text : List Char) (maxWords : Nat) : List Char :=
  let words := jsSplitWs text
  if words.length ≤ maxWords then text
  else
    let truncated := joinSp (words.take maxWords)
    let lastSentenceEnd : ℤ :=
      max (lastIndexOfChar '.' truncated)
        (max (lastIndexOfChar '!' truncated) (lastIndexOfChar '?' truncated))
    if (truncated.length : ℚ) * 0.7 < (lastSentenceEnd : ℚ) then
      truncated.take (lastSentenceEnd.toNat + 1)
    else truncated ++ ['.', '.', '.']

/-- Model of formatForTTS: clean title and body, combine them with a
pause, and when the estimated duration exceeds the 90-second maximum,
truncate to `Math.floor((90 / 60) * 150)` words and re-count. -/
def formatForTTS (F : FormatterFns) (post : RedditPost) : FormattedText :=
  let title := F.cleanMarkdown post.title
  let body := if post.selftext ≠ [] then F.cleanMarkdown post.selftext else []
  let combined := if body ≠ [] then title ++ '.' :: ' ' :: body else title
  let wordCount := countWordsF combined
  let estimated := estimateDurationF wordCount
  if maxDurationSeconds < estimated then
    let maxWords := Nat.floor ((maxDurationSeconds : ℚ) / 60 * (wordsPerMinute : ℚ))
    let t := truncateToMaxDuration combined maxWords
    { text := F.addPauses t
      wordCount := countWordsF t
      estimatedDuration := estimateDurationF (countWordsF t) }
  else
    { text := F.addPauses combined, wordCount := wordCount, estimatedDuration := estimated }

/-- generateAudio of the TTS service: format the post text, then run the
provider failover loop. -/
def generateAudio (F : FormatterFns) (providers : List ProviderModel) (post : RedditPost) :
    GenTrace :=
  generateAudioGo (formatForTTS F post) providers

/-! ### Orchestrator (src/services/orchestration/post-to-audio.ts)

Each store or service call the orchestrator awaits is an external effect;
an `OrchestratorEnv` fixes the outcome of each call, and the orchestrator
body is embedded as a pure function of those outcomes. -/

structure SelectedPost where
  id : String
  reddit_post_id : String
  audio_file_id : Option String
deriving DecidableEq

structure StorageError where
  message : String
  code : String
deriving DecidableEq

structure AudioFile where
  id : String
  file_url : String
  duration_seconds : Nat
  file_size_bytes : Nat
  format : String
  tts_provider : String
  voice_used : String
deriving DecidableEq

structure UploadResult where
  audioFileId : String
  publicUrl : String
  fileSize : Nat
deriving DecidableEq

structure OrchestrationError where
  message : String
  code : String
deriving DecidableEq

structure PostToAudioResult where
  selectedPost : SelectedPost
  audioFile : AudioFile
  audioUrl : String
  duration : Nat
deriving DecidableEq

structure OrchestratorEnv where
  saveSelectedPost : Except StorageError SelectedPost
  getSelectedPostByRedditId : Except StorageError (Option SelectedPost)
  generateAudio : Except TTSServiceError AudioGenResult
  uploadAudioFile : Except StorageError UploadResult
  saveAudioFile : Except StorageError AudioFile
  linkAudioToPost : Except StorageError Unit

/-- The error thrown when the store reports a uniqueness violation but
the re-query finds no record (spec name: PersistInconsistency). -/
def persistInconsistencyError : OrchestrationError :=
  { message := "Post marked as duplicate but not found in database", code := "POST_SAVE_FAILED" }

/-- The error thrown when the re-queried record already references audio
(spec name: AlreadyProcessed). -/
def alreadyProcessedError : OrchestrationError :=
  { message := "Post has already been processed with audio", code := "POST_ALREADY_PROCESSED" }

/-- Steps 3 to 6 of processPostToAudio: generate audio, upload it, save
the metadata and link it to the saved post. -/
def pipelineAfterSave (env : OrchestratorEnv) (savedPost : SelectedPost) :
    Except OrchestrationError PostToAudioResult :=
  match env.generateAudio with
  | .error _ => .error { message := "Failed to generate audio", code := "TTS_FAILED" }
  | .ok audioResult =>
    match env.uploadAudioFile with
    | .error _ => .error { message := "Failed to upload audio file", code := "UPLOAD_FAILED" }
    | .ok uploadResult =>
      match env.saveAudioFile with
      | .error _ =>
        .error { message := "Failed to save audio metadata", code := "METADATA_SAVE_FAILED" }
      | .ok audioFile =>
        match env.linkAudioToPost with
        | .error _ => .error { message := "Failed to link audio to post", code := "LINK_FAILED" }
        | .ok _ =>
          .ok { selectedPost := savedPost
                audioFile := audioFile
                audioUrl := uploadResult.publicUrl
                duration := audioResult.duration }

/-- Step 2 of processPostToAudio and the continuation: persist the
selected post; on a StorageError with code DUPLICATE_POST, re-query by
source id and branch (not found, already linked, reuse); any other save
failure is POST_SAVE_FAILED.  A failing re-query escapes the inner catch
and is wrapped by the outer handler as UNEXPECTED_ERROR. -/
def processSelected (env : OrchestratorEnv) : Except OrchestrationError PostToAudioResult :=
  match env.saveSelectedPost with
  | .ok savedPost => pipelineAfterSave env savedPost
  | .error e =>
    if e.code = "DUPLICATE_POST" then
      match env.getSelectedPostByRedditId with
      | .error e2 =>
        .error { message := "Unexpected error during processing: " ++ e2.message
                 code := "UNEXPECTED_ERROR" }
      | .ok none => .error persistInconsistencyError
      | .ok (some existingPost) =>
        if existingPost.audio_file_id.isSome then .error alreadyProcessedError
        else pipelineAfterSave env existingPost
    else .error { message := "Failed to save selected post", code := "POST_SAVE_FAILED" }

/-- Model of processPostToAudio: empty-batch guard, selection, then the
persist-and-continue pipeline. -/
noncomputable def processPostToAudio (env : OrchestratorEnv) (now : ℝ)
    (posts : List RedditPost) : Except OrchestrationError PostToAudioResult :=
  if posts.length = 0 then
    .error { message := "No posts provided for processing", code := "EMPTY_POSTS_ARRAY" }
  else
    match selectBestPost now posts with
    | none => .error { message := "No valid posts found after analysis", code := "NO_VALID_POSTS" }
    | some _ => processSelected env

/-- Model of isPostProcessed: `post !== null && post.audio_file_id !==
null` on a successful lookup, `false` when the lookup throws. -/
def isPostProcessed (lookup : Except StorageError (Option SelectedPost)) : Bool :=
  match lookup with
  | .error _ => false
  | .ok none => false
  | .ok (some post) => post.audio_file_id.isSome

/-! ### Auxiliary definitions used by the statements and proofs -/

/-- Whether the last character of the list is whitespace; `b` is returned
for the empty list (the flag threaded by `countRunsAux`). -/
def endWs (b : Bool) : List Char → Bool
  | [] => b
  | c :: cs => endWs (isWs c) cs

/-- A synthesize failure the retry loop treats as transient: anything but
an ElevenLabs/Inworld error with status 401 or 403. -/
def isRetryableFailure (r : SpeechResult) : Prop :=
  r = .genericFailure ∨ ∃ s, r = .providerError s ∧ s ≠ 401 ∧ s ≠ 403

/-! ### Concrete example inputs -/

def exAuthFailProvider : ProviderModel :=
  { name := "elevenlabs", avail := fun _ => true, speech := fun _ => .providerError 401 }

def exGoodProvider : ProviderModel :=
  { name := "inworld", avail := fun _ => true, speech := fun _ => .success [7, 7] }

def exFlakyProvider : ProviderModel :=
  { name := "elevenlabs", avail := fun _ => true
    speech := fun k => if k ≤ 2 then .genericFailure else .success [5] }

def exDownProvider : ProviderModel :=
  { name := "elevenlabs", avail := fun _ => false, speech := fun _ => .success [9] }

def exFmt : FormattedText := { text := [], wordCount := 0, estimatedDuration := 0 }

def exNegativePost : RedditPost :=
  { id := "neg1", title := [], author := "u", score := -1, num_comments := 1
    created_utc := 0, selftext := [], permalink := "", subreddit := "s" }

def exLinkOnlyPost : RedditPost :=
  { id := "link1"
    title := ("one two three four five six seven eight nine ten").toList
    author := "u", score := 0, num_comments := 0, created_utc := 0
    selftext := ("see https://aaaaaaaaaaaaaaaaaaaa").toList
    permalink := "", subreddit := "s" }

def exLinkStartPost : RedditPost :=
  { id := "ls1"
    title := ("one two three four five six seven eight nine ten").toList
    author := "u", score := 0, num_comments := 0, created_utc := 0
    selftext := ("https://aaaaaaaaaaaaaaaa").toList
    permalink := "", subreddit := "s" }

def exNicePost : RedditPost :=
  { id := "nice1"
    title := ("one two three four five six seven eight nine ten").toList
    author := "u", score := 0, num_comments := 0, created_utc := 0
    selftext := ("hello there friends").toList
    permalink := "", subreddit := "s" }

def exExistingPost : SelectedPost :=
  { id := "sel1", reddit_post_id := "abc", audio_file_id := none }

def exAudioFile : AudioFile :=
  { id := "aud1", file_url := "u", duration_seconds := 10, file_size_bytes := 3
    format := "mp3", tts_provider := "elevenlabs", voice_used := "v" }

def exUpload : UploadResult :=
  { audioFileId := "path", publicUrl := "u2", fileSize := 3 }

def exAudioGen : AudioGenResult :=
  { audioBuffer := [1, 2, 3], provider := "elevenlabs", voice := "v"
    duration := 10, sizeBytes := 3 }

def exDupEnv : OrchestratorEnv :=
  { saveSelectedPost := .error { message := "dup", code := "DUPLICATE_POST" }
    getSelectedPostByRedditId := .ok (some exExistingPost)
    generateAudio := .ok exAudioGen
    uploadAudioFile := .ok exUpload
    saveAudioFile := .ok exAudioFile
    linkAudioToPost := .ok () }

def exDupError : StorageError := { message := "dup", code := "DUPLICATE_POST" }

def exFmtFns : FormatterFns :=
  { cleanMarkdown := fun l => l, addPauses := fun l => l }

def exShortPost : RedditPost :=
  { id := "short1", title := ("hello world").toList, author := "u"
    score := 3, num_comments := 1, created_utc := 0
    selftext := ("a few words here").toList, permalink := "", subreddit := "s" }

/-! ### Theorems -/

/-- C6: for every word count w, the length score computed by the analyzer
equals the piecewise specification formula over the bounds min 50,
ideal 100..500, max 800; in particular at exactly w = 50 the score is 0.3
and the formulas of the two branches adjacent to that boundary agree
there, so there is no discontinuity beyond the defined piecewise
function. -/
theorem C6_textLengthScore_piecewise :
    (∀ w : Nat, calculateTextLengthScore w = textLengthScoreSpec w) ∧
    calculateTextLengthScore 50 = 0.3 ∧
    ((50 : ℚ) / 50 * 0.3 = 0.3 + ((50 : ℚ) - 50) / 50 * 0.7) := by
  refine ⟨?_, ?_, by norm_num⟩
  · intro w
    unfold calculateTextLengthScore textLengthScoreSpec lengthMin lengthIdealMin
      lengthIdealMax lengthMax
    split_ifs <;> first | rfl | omega | (push_cast; norm_num)
  · norm_num [calculateTextLengthScore, lengthMin, lengthIdealMin, lengthIdealMax, lengthMax]

/-- C9: isPostProcessed is true exactly when the store lookup succeeds
with an existing record whose audio reference is set; in particular a
failing lookup yields false (treated as not processed) instead of
propagating the error. -/
theorem C9_isPostProcessed_characterisation :
    (∀ r : Except StorageError (Option SelectedPost),
      isPostProcessed r = true ↔
        ∃ sp, r = .ok (some sp) ∧ sp.audio_file_id.isSome = true) ∧
    (∀ e : StorageError, isPostProcessed (.error e) = false) := by
  constructor
  · intro r
    match r with
    | .error e => simp [isPostProcessed]
    | .ok none => simp [isPostProcessed]
    | .ok (some sp) => simp [isPostProcessed]
  · intro e
    rfl

/-- C2: a synthesize failure with HTTP status 401 or 403 aborts the
provider immediately: exactly one synthesize call, no backoff waits, and
the authentication error is the loop result; with that provider alone,
generate fails at once with ALL_PROVIDERS_FAILED, while with a healthy
second provider configured, generate falls through and returns the second
provider's synthesis, still having spent only one attempt and no waits on
the first provider. -/
theorem C2_auth_error_no_retry (p q : ProviderModel) (s : Nat) (b : List Nat)
    (hs : s = 401 ∨ s = 403) (hav : p.avail 1 = true)
    (hsp : p.speech 1 = .providerError s)
    (hqav : q.avail 1 = true) (hqsp : q.speech 1 = .success b) :
    (generateWithRetry p).result = .error (.provider s) ∧
    (generateWithRetry p).speechCalls = 1 ∧
    (generateWithRetry p).waits = [] ∧
    (∀ fmt : FormattedText,
      (generateAudioGo fmt [p]).result = .error { code := "ALL_PROVIDERS_FAILED" }) ∧
    (∀ fmt : FormattedText,
      (generateAudioGo fmt [p, q]).result =
        .ok { audioBuffer := b, provider := q.name, voice := voiceFor q.name
              duration := fmt.estimatedDuration, sizeBytes := b.length } ∧
      (generateAudioGo fmt [p, q]).traces.map (fun t => (t.2.speechCalls, t.2.waits)) =
        [(1, []), (1, [])]) := by
  have hp : generateWithRetry p =
      { result := .error (.provider s), speechCalls := 1, availCalls := 1, waits := [] } := by
    simp [generateWithRetry, retryGo, maxAttempts, hav, hsp, hs]
  have hq : generateWithRetry q =
      { result := .ok b, speechCalls := 1, availCalls := 1, waits := [] } := by
    simp [generateWithRetry, retryGo, maxAttempts, hqav, hqsp]
  refine ⟨by rw [hp], by rw [hp], by rw [hp], ?_, ?_⟩
  · intro fmt
    simp [generateAudioGo, hp]
  · intro fmt
    simp [generateAudioGo, hp, hq]

/-- C2 witness at a concrete pair of providers. -/
theorem C2_auth_error_no_retry_witness :
    (generateWithRetry exAuthFailProvider).speechCalls = 1 ∧
    (generateWithRetry exAuthFailProvider).waits = [] ∧
    (generateAudioGo exFmt [exAuthFailProvider, exGoodProvider]).result =
      .ok { audioBuffer := [7, 7], provider := "inworld", voice := voiceFor "inworld"
            duration := 0, sizeBytes := 2 } := by
  have h := C2_auth_error_no_retry exAuthFailProvider exGoodProvider 401 [7, 7]
    (Or.inl rfl) rfl rfl rfl rfl
  exact ⟨h.2.1, h.2.2.1, (h.2.2.2.2 exFmt).1⟩

/-- C3 counterexample: a provider whose isAvailable probe always reports
false is NOT skipped immediately; the loop spends all three attempts on
it, probing availability three times and awaiting two backoff delays
(1000 ms and 2000 ms) before giving up on the provider, contradicting the
claim that no retry attempts and no backoff waits are spent on a
known-down provider. -/
theorem C3_counterexample :
    (generateWithRetry exDownProvider).availCalls = 3 ∧
    (generateWithRetry exDownProvider).waits = [1000, 2000] ∧
    ¬ ((generateWithRetry exDownProvider).waits = []) := by
  refine ⟨rfl, rfl, by decide⟩

/-- C3 amended: when isAvailable reports false, the thrown error is a
plain Error, not a provider error, so the loop treats it as transient: it
performs no synthesize call, re-probes availability up to maxAttempts
(three) times with backoff waits between attempts, and only after
exhausting them records the failure and falls through to the next
provider. -/
theorem C3_unavailable_provider_retried (p : ProviderModel)
    (hav : ∀ k, p.avail k = false) :
    (generateWithRetry p).speechCalls = 0 ∧
    (generateWithRetry p).availCalls = 3 ∧
    (generateWithRetry p).waits = [backoffDelay 1, backoffDelay 2] ∧
    (generateWithRetry p).result = .error .generic ∧
    (∀ fmt rest, (generateAudioGo fmt (p :: rest)).result =
      (generateAudioGo fmt rest).result) := by
  have hp : generateWithRetry p =
      { result := .error .generic, speechCalls := 0, availCalls := 3
        waits := [backoffDelay 1, backoffDelay 2] } := by
    simp [generateWithRetry, retryGo, maxAttempts, hav]
  refine ⟨by rw [hp], by rw [hp], by rw [hp], by rw [hp], ?_⟩
  intro fmt rest
  simp [generateAudioGo, hp]

/-- C3 amended witness at a concrete always-down provider. -/
theorem C3_unavailable_provider_retried_witness :
    (generateWithRetry exDownProvider).speechCalls = 0 ∧
    (generateAudioGo exFmt [exDownProvider, exGoodProvider]).result =
      (generateAudioGo exFmt [exGoodProvider]).result := by
  have h := C3_unavailable_provider_retried exDownProvider (fun k => rfl)
  exact ⟨h.1, h.2.2.2.2 exFmt [exGoodProvider]⟩

/-- One step of the retry loop on a transient failure: the attempt spends
one synthesize call and continues with the next attempt number. -/
theorem retryGo_step_retryable (p : ProviderModel) (fuel attempt : Nat)
    (le : Option RetryError) (hatt : attempt ≤ maxAttempts)
    (hav : p.avail attempt = true) (hr : isRetryableFailure (p.speech attempt)) :
    ∃ e, (retryGo p (fuel + 1) attempt le).result =
        (retryGo p fuel (attempt + 1) (some e)).result ∧
      (retryGo p (fuel + 1) attempt le).speechCalls =
        (retryGo p fuel (attempt + 1) (some e)).speechCalls + 1 := by
  have hnot : ¬ (maxAttempts < attempt) := by omega
  rcases hr with hr | ⟨s, hr, h401, h403⟩
  · exact ⟨.generic, by simp [retryGo, hnot, hav, hr]⟩
  · refine ⟨.provider s, ?_⟩
    by_cases h429 : s = 429 ∧ attempt < maxAttempts
    · simp [retryGo, hnot, hav, hr, h401, h403, h429]
    · simp [retryGo, hnot, hav, hr, h401, h403, h429]

/-- C8: a provider whose synthesize call fails transiently on the first
two attempts and succeeds on the third yields the successful synthesis
after exactly three synthesize calls, and generate returns that result
without falling through to any later provider. -/
theorem C8_two_failures_then_success (p : ProviderModel) (b : List Nat)
    (hav : ∀ k, p.avail k = true)
    (h1 : isRetryableFailure (p.speech 1)) (h2 : isRetryableFailure (p.speech 2))
    (h3 : p.speech 3 = .success b) :
    (generateWithRetry p).result = .ok b ∧
    (generateWithRetry p).speechCalls = 3 ∧
    (∀ fmt rest, (generateAudioGo fmt (p :: rest)).result =
        .ok { audioBuffer := b, provider := p.name, voice := voiceFor p.name
              duration := fmt.estimatedDuration, sizeBytes := b.length } ∧
      (generateAudioGo fmt (p :: rest)).traces = [(p.name, generateWithRetry p)]) := by
  obtain ⟨e1, hres1, hcalls1⟩ :=
    retryGo_step_retryable p 3 1 none (by decide) (hav 1) h1
  obtain ⟨e2, hres2, hcalls2⟩ :=
    retryGo_step_retryable p 2 2 (some e1) (by decide) (hav 2) h2
  have hsucc : retryGo p 2 3 (some e2) =
      { result := .ok b, speechCalls := 1, availCalls := 1, waits := [] } := by
    simp [retryGo, maxAttempts, hav 3, h3]
  have hres : (generateWithRetry p).result = .ok b := by
    rw [generateWithRetry, show maxAttempts + 1 = 4 from rfl, hres1, hres2, hsucc]
  have hcalls : (generateWithRetry p).speechCalls = 3 := by
    rw [generateWithRetry, show maxAttempts + 1 = 4 from rfl, hcalls1, hcalls2, hsucc]
  refine ⟨hres, hcalls, ?_⟩
  intro fmt rest
  simp [generateAudioGo, hres]

/-- C8 witness at a concrete flaky provider. -/
theorem C8_two_failures_then_success_witness :
    (generateWithRetry exFlakyProvider).result = .ok [5] ∧
    (generateWithRetry exFlakyProvider).speechCalls = 3 ∧
    (generateAudioGo exFmt [exFlakyProvider]).result =
      .ok { audioBuffer := [5], provider := "elevenlabs", voice := voiceFor "elevenlabs"
            duration := 0, sizeBytes := 1 } := by
  have h := C8_two_failures_then_success exFlakyProvider [5]
    (fun k => rfl) (Or.inl rfl) (Or.inl rfl) rfl
  exact ⟨h.1, h.2.1, (h.2.2 exFmt []).1⟩

/-- C4: code bug.  The claim (and the comment in the source, which
promises a score "normalized 0-1") requires every sub-score to lie in
the unit interval for every item, including items with zero or negative
engagement counts; but `Math.min(Math.log10(raw + 1) / 3, 1)` has no
lower clamp, so a one-hour-old post with score -1 and one comment has
raw engagement -0.7 and engagementScore log10(0.3) / 3 < 0. -/
theorem C4_engagement_below_zero : calculateEngagementScore 3600 exNegativePost < 0 := by
  have harg : (((-1 : ℤ) : ℝ) + ((1 : ℤ) : ℝ) * 0.3) /
      getPostAgeHours 3600 (0 : ℝ) + 1 = 3 / 10 := by
    unfold getPostAgeHours
    rw [show ((3600 : ℝ) - 0) / 3600 = 1 by norm_num, max_eq_left (by norm_num)]
    norm_num
  have hlog : Real.logb 10 ((((-1 : ℤ) : ℝ) + ((1 : ℤ) : ℝ) * 0.3) /
      getPostAgeHours 3600 (0 : ℝ) + 1) < 0 := by
    rw [harg]
    exact Real.logb_neg (by norm_num) (by norm_num) (by norm_num)
  have hdiv : Real.logb 10 ((((-1 : ℤ) : ℝ) + ((1 : ℤ) : ℝ) * 0.3) /
      getPostAgeHours 3600 (0 : ℝ) + 1) / 3 < 0 :=
    div_neg_of_neg_of_pos hlog (by norm_num)
  calc calculateEngagementScore 3600 exNegativePost
      ≤ Real.logb 10 ((((-1 : ℤ) : ℝ) + ((1 : ℤ) : ℝ) * 0.3) /
          getPostAgeHours 3600 (0 : ℝ) + 1) / 3 := min_le_left _ _
    _ < 0 := hdiv

/-- C1: when persisting the selected record fails with the uniqueness
violation DUPLICATE_POST, the orchestrator re-queries by source id and
branches on a closed set of cases: no record found fails with the
persist-inconsistency error; a record with its audio reference already
set fails with the already-processed error; a record with the audio
reference unset is reused and the remaining pipeline continues on it
without an error from this step. -/
theorem C1_duplicate_handling (env : OrchestratorEnv) (e : StorageError)
    (hsave : env.saveSelectedPost = .error e) (hdup : e.code = "DUPLICATE_POST") :
    (env.getSelectedPostByRedditId = .ok none →
      processSelected env = .error persistInconsistencyError) ∧
    (∀ sp, env.getSelectedPostByRedditId = .ok (some sp) →
      sp.audio_file_id.isSome = true →
      processSelected env = .error alreadyProcessedError) ∧
    (∀ sp, env.getSelectedPostByRedditId = .ok (some sp) →
      sp.audio_file_id = none →
      processSelected env = pipelineAfterSave env sp) := by
  refine ⟨?_, ?_, ?_⟩
  · intro hlook
    simp [processSelected, hsave, hdup, hlook]
  · intro sp hlook hsome
    simp [processSelected, hsave, hdup, hlook, hsome]
  · intro sp hlook hnone
    simp [processSelected, hsave, hdup, hlook, hnone]

/-- C1 witness: a concrete environment in the reuse branch where the
remaining pipeline succeeds end to end on the existing record. -/
theorem C1_duplicate_handling_witness :
    processSelected exDupEnv =
      .ok { selectedPost := exExistingPost, audioFile := exAudioFile
            audioUrl := "u2", duration := 10 } := by
  have h := (C1_duplicate_handling exDupEnv exDupError rfl rfl).2.2 exExistingPost rfl rfl
  rw [h]
  rfl

/-- The concrete post exNicePost passes the usability predicate. -/
theorem exNicePost_usable : hasUsableTextContent exNicePost = true := by
  have hwc : ¬ (countWords (trimStr (exNicePost.title ++ ' ' :: exNicePost.selftext)) < 10) := by
    decide
  have hstart : startsWithHttp (trimStr exNicePost.selftext) = false := by decide
  simp [hasUsableTextContent, hwc, hstart]

/-- The concrete post exLinkOnlyPost (URL-heavy body not starting with a
URL) passes the usability predicate. -/
theorem exLinkOnlyPost_usable : hasUsableTextContent exLinkOnlyPost = true := by
  have hwc : ¬ (countWords (trimStr (exLinkOnlyPost.title ++ ' ' ::
      exLinkOnlyPost.selftext)) < 10) := by decide
  have hstart : startsWithHttp (trimStr exLinkOnlyPost.selftext) = false := by decide
  simp [hasUsableTextContent, hwc, hstart]

/-- The concrete post exLinkStartPost (body entirely a URL) fails the
usability predicate. -/
theorem exLinkStartPost_not_usable : hasUsableTextContent exLinkStartPost = false := by
  have hwc : ¬ (countWords (trimStr (exLinkStartPost.title ++ ' ' ::
      exLinkStartPost.selftext)) < 10) := by decide
  have hstart : startsWithHttp (trimStr exLinkStartPost.selftext) = true := by decide
  have hne : exLinkStartPost.selftext ≠ [] := by decide
  have hurl : urlJoinedLen exLinkStartPost.selftext = 24 := by decide
  have hlen : exLinkStartPost.selftext.length = 24 := by decide
  have hratio : (urlJoinedLen exLinkStartPost.selftext : ℚ) /
      (exLinkStartPost.selftext.length : ℚ) > 0.8 := by
    rw [hurl, hlen]
    norm_num
  simp [hasUsableTextContent, hwc, hstart, hne, hratio]

/-- The head of the stable descending sort is the element with the
highest totalScore occurring earliest in the input list. -/
theorem sortByTotalDesc_head_spec (l : List PostScore) (hl : l ≠ []) :
    ∃ i y, (sortByTotalDesc l).head? = some y ∧ l[i]? = some y ∧
      (∀ t ∈ l, t.totalScore ≤ y.totalScore) ∧
      (∀ (j : Nat) (t : PostScore), j < i → l[j]? = some t → t.totalScore < y.totalScore) := by
  induction l with
  | nil => exact absurd rfl hl
  | cons x xs ih =>
    by_cases hxs : xs = []
    · subst hxs
      refine ⟨0, x, by simp [sortByTotalDesc, insertScoreDesc], by simp, ?_, ?_⟩
      · intro t ht
        have : t = x := by simpa using ht
        subst this
        exact le_refl _
      · intro j t hj
        omega
    · obtain ⟨i, y, hhead, hget, hmax, hstrict⟩ := ih hxs
      obtain ⟨zs, hsort⟩ : ∃ zs, sortByTotalDesc xs = y :: zs := by
        cases hs : sortByTotalDesc xs with
        | nil => rw [hs] at hhead; simp at hhead
        | cons z zs =>
          rw [hs] at hhead
          have : z = y := by simpa using hhead
          subst this
          exact ⟨zs, rfl⟩
      by_cases hc : y.totalScore ≤ x.totalScore
      · refine ⟨0, x, ?_, by simp, ?_, ?_⟩
        · simp [sortByTotalDesc, hsort, insertScoreDesc, hc]
        · intro t ht
          rcases List.mem_cons.mp ht with h | h
          · subst h; exact le_refl _
          · exact le_trans (hmax t h) hc
        · intro j t hj
          omega
      · refine ⟨i + 1, y, ?_, by simpa using hget, ?_, ?_⟩
        · simp [sortByTotalDesc, hsort, insertScoreDesc, hc]
        · intro t ht
          rcases List.mem_cons.mp ht with h | h
          · subst h; exact le_of_lt (not_le.mp hc)
          · exact hmax t h
        · intro j t hj hjget
          cases j with
          | zero =>
            have hxt : x = t := by simpa using hjget
            subst hxt
            exact not_le.mp hc
          | succ j' =>
            exact hstrict j' t (by omega) (by simpa using hjget)

/-- C5: selectBest filters by the usability predicate and returns none
exactly when no item survives (including the empty batch); otherwise it
returns the surviving item of highest totalScore, and on ties the one
occurring earliest among the survivors, which preserve the original
batch order (stable descending sort). -/
theorem C5_selectBest_characterisation (now : ℝ) (posts : List RedditPost) :
    (selectBestPost now posts = none ↔ posts.filter hasUsableTextContent = []) ∧
    (∀ s, selectBestPost now posts = some s →
      ∃ i, ((posts.filter hasUsableTextContent).map (scorePost now))[i]? = some s ∧
        (∀ t ∈ (posts.filter hasUsableTextContent).map (scorePost now),
          t.totalScore ≤ s.totalScore) ∧
        (∀ (j : Nat) (t : PostScore), j < i →
          ((posts.filter hasUsableTextContent).map (scorePost now))[j]? = some t →
          t.totalScore < s.totalScore)) := by
  by_cases h0 : posts.length = 0
  · have hnil : posts = [] := List.length_eq_zero.mp h0
    subst hnil
    constructor
    · simp [selectBestPost]
    · intro s hs
      simp [selectBestPost] at hs
  · by_cases hu : (posts.filter hasUsableTextContent).length = 0
    · have hfil : posts.filter hasUsableTextContent = [] := List.length_eq_zero.mp hu
      constructor
      · simp [selectBestPost, h0, hu, hfil]
      · intro s hs
        simp [selectBestPost, h0, hu] at hs
    · have hne : (posts.filter hasUsableTextContent).map (scorePost now) ≠ [] := by
        intro h
        apply hu
        simpa using congrArg List.length h
      obtain ⟨i, y, hhead, hget, hmax, hstrict⟩ := sortByTotalDesc_head_spec _ hne
      have hsel : selectBestPost now posts = some y := by
        simp [selectBestPost, h0, hu, hhead]
      constructor
      · constructor
        · intro h
          rw [h] at hsel
          cases hsel
        · intro h
          exact absurd (by simpa using congrArg List.length h) hu
      · intro s hs
        rw [hsel] at hs
        have hys : y = s := by simpa using hs
        subst hys
        exact ⟨i, hget, hmax, hstrict⟩

/-- C5 witness: the empty batch yields none, and on a concrete singleton
batch the returned item dominates every survivor's score. -/
theorem C5_selectBest_witness :
    selectBestPost 0 ([] : List RedditPost) = none ∧
    (∀ t ∈ ([exNicePost].filter hasUsableTextContent).map (scorePost 0),
      t.totalScore ≤ (scorePost 0 exNicePost).totalScore) := by
  have h1 := (C5_selectBest_characterisation 0 []).1.mpr rfl
  have hsel : selectBestPost 0 [exNicePost] = some (scorePost 0 exNicePost) := by
    simp [selectBestPost, sortByTotalDesc, insertScoreDesc, List.filter, exNicePost_usable]
  obtain ⟨i, hget, hmax, hstrict⟩ :=
    (C5_selectBest_characterisation 0 [exNicePost]).2 _ hsel
  exact ⟨h1, hmax⟩

/-- The scorer returns a record whose post field is the scored post. -/
theorem scorePost_post (now : ℝ) (p : RedditPost) : (scorePost now p).post = p := rfl

/-- C7 counterexample: a post whose body is 87.5 percent URL characters
but does not start with the URL (body "see https://...") passes
hasUsableTextContent and is selected, so the claim as stated — exclusion
whenever the URL content occupies more than 80 percent of the body —
fails on the code, which additionally requires the trimmed body to start
with http. -/
theorem C7_counterexample :
    (0.8 : ℚ) * (exLinkOnlyPost.selftext.length : ℚ) <
      (urlJoinedLen exLinkOnlyPost.selftext : ℚ) ∧
    10 ≤ countWords (exLinkOnlyPost.title ++ ' ' :: exLinkOnlyPost.selftext) ∧
    hasUsableTextContent exLinkOnlyPost = true ∧
    selectBestPost 0 [exLinkOnlyPost] = some (scorePost 0 exLinkOnlyPost) := by
  have hurl : urlJoinedLen exLinkOnlyPost.selftext = 28 := by decide
  have hlen : exLinkOnlyPost.selftext.length = 32 := by decide
  refine ⟨by rw [hurl, hlen]; norm_num, by decide, exLinkOnlyPost_usable, ?_⟩
  simp [selectBestPost, sortByTotalDesc, insertScoreDesc, List.filter, exLinkOnlyPost_usable]

/-- C7 amended: every candidate item whose body (after trimming) starts
with a URL and whose URL content occupies more than 80 percent of the
body's characters is excluded from selection entirely — it fails the
usability predicate, is filtered out before scoring, and is never the
selected item — even when the combined title+body word count is at least
ten. -/
theorem C7_linkStart_excluded (now : ℝ) (posts : List RedditPost)
    (post : RedditPost) (s : PostScore)
    (hstart : startsWithHttp (trimStr post.selftext) = true)
    (hratio : (0.8 : ℚ) * (post.selftext.length : ℚ) < (urlJoinedLen post.selftext : ℚ))
    (hmem : post ∈ posts) (hsel : selectBestPost now posts = some s) :
    hasUsableTextContent post = false ∧ s.post ≠ post := by
  have hne : post.selftext ≠ [] := by
    intro h
    rw [h] at hstart
    exact absurd hstart (by decide)
  have hlen : (0 : ℚ) < (post.selftext.length : ℚ) := by
    have := List.length_pos.mpr hne
    exact_mod_cast this
  have hgt : (urlJoinedLen post.selftext : ℚ) / (post.selftext.length : ℚ) > 0.8 := by
    rw [gt_iff_lt, lt_div_iff₀ hlen]
    linarith [hratio]
  have husable : hasUsableTextContent post = false := by
    unfold hasUsableTextContent
    by_cases hwc : countWords (trimStr (post.title ++ ' ' :: post.selftext)) < 10
    · simp [hwc]
    · simp [hwc, hne, hstart, hgt]
  refine ⟨husable, ?_⟩
  obtain ⟨i, hget, hmax, hstrict⟩ :=
    (C5_selectBest_characterisation now posts).2 s hsel
  have hsmem : s ∈ (posts.filter hasUsableTextContent).map (scorePost now) :=
    List.getElem?_mem hget
  obtain ⟨q, hq, hqs⟩ := List.mem_map.mp hsmem
  intro hcontra
  have hqpost : q = post := by
    rw [← hqs] at hcontra
    exact hcontra
  subst hqpost
  have : hasUsableTextContent q = true := (List.mem_filter.mp hq).2
  rw [husable] at this
  cases this

/-- C7 amended witness: a concrete batch where the link-started post is
filtered out and the other post is selected. -/
theorem C7_linkStart_excluded_witness :
    selectBestPost 0 [exLinkStartPost, exNicePost] = some (scorePost 0 exNicePost) ∧
    hasUsableTextContent exLinkStartPost = false ∧
    (scorePost 0 exNicePost).post ≠ exLinkStartPost := by
  have hsel : selectBestPost 0 [exLinkStartPost, exNicePost] =
      some (scorePost 0 exNicePost) := by
    simp [selectBestPost, sortByTotalDesc, insertScoreDesc, List.filter,
      exLinkStartPost_not_usable, exNicePost_usable]
  have hurl : urlJoinedLen exLinkStartPost.selftext = 24 := by decide
  have hlen : exLinkStartPost.selftext.length = 24 := by decide
  have h := C7_linkStart_excluded 0 [exLinkStartPost, exNicePost] exLinkStartPost
    (scorePost 0 exNicePost) (by decide) (by rw [hurl, hlen]; norm_num) (by simp) hsel
  exact ⟨hsel, h.1, h.2⟩

/-! Counting lemmas about whitespace-free runs, used to bound the word
count of the truncated text (claim C10). -/

theorem countRunsAux_true_le_false_succ (l : List Char) :
    countRunsAux true l ≤ countRunsAux false l + 1 := by
  induction l with
  | nil => simp [countRunsAux]
  | cons c cs ih =>
    cases hc : isWs c with
    | true => simp [countRunsAux, hc]
    | false =>
      simp [countRunsAux, hc]
      omega

theorem countRunsAux_take (l : List Char) : ∀ (n : Nat) (b : Bool),
    countRunsAux b (l.take n) ≤ countRunsAux b l := by
  induction l with
  | nil => intro n b; simp
  | cons c cs ih =>
    intro n b
    cases n with
    | zero => simp [countRunsAux]
    | succ n =>
      cases hc : isWs c with
      | true => simpa [countRunsAux, hc] using ih n true
      | false =>
        simp only [List.take_succ_cons, countRunsAux, hc, if_false, Bool.false_eq_true]
        exact Nat.add_le_add_left (ih n false) _

theorem endWs_append (l : List Char) : ∀ (m : List Char) (b : Bool),
    endWs b (l ++ m) = endWs (endWs b l) m := by
  induction l with
  | nil => intro m b; rfl
  | cons c cs ih => intro m b; simp [endWs, ih]

theorem countRunsAux_append (l : List Char) : ∀ (m : List Char) (b : Bool),
    countRunsAux b (l ++ m) = countRunsAux b l + countRunsAux (endWs b l) m := by
  induction l with
  | nil => intro m b; simp [countRunsAux, endWs]
  | cons c cs ih =>
    intro m b
    cases hc : isWs c with
    | true => simp [countRunsAux, endWs, hc, ih]
    | false =>
      simp [countRunsAux, endWs, hc, ih]
      omega

theorem countRunsAux_false_all_nonWs (l : List Char) (h : ∀ c ∈ l, isWs c = false) :
    countRunsAux false l = 0 := by
  induction l with
  | nil => rfl
  | cons c cs ih =>
    have hc := h c (by simp)
    simp [countRunsAux, hc]
    exact ih (fun d hd => h d (by simp [hd]))

theorem countRunsAux_true_all_nonWs (l : List Char) (h : ∀ c ∈ l, isWs c = false) :
    countRunsAux true l = if l = [] then 0 else 1 := by
  cases l with
  | nil => rfl
  | cons c cs =>
    have hc := h c (by simp)
    simp [countRunsAux, hc]
    exact countRunsAux_false_all_nonWs cs (fun d hd => h d (by simp [hd]))

theorem countRunsAux_le_one_nonWs (l : List Char) (h : ∀ c ∈ l, isWs c = false)
    (b : Bool) : countRunsAux b l ≤ 1 := by
  cases b with
  | false => rw [countRunsAux_false_all_nonWs l h]; omega
  | true => rw [countRunsAux_true_all_nonWs l h]; split <;> omega

theorem endWs_all_nonWs (l : List Char) (h : ∀ c ∈ l, isWs c = false) :
    ∀ b, endWs b l = if l = [] then b else false := by
  induction l with
  | nil => intro b; rfl
  | cons c cs ih =>
    intro b
    have hc := h c (by simp)
    have htail := ih (fun d hd => h d (by simp [hd]))
    rw [show endWs b (c :: cs) = endWs (isWs c) cs from rfl, htail (isWs c)]
    simp [hc]

theorem countRuns_joinSp (ps : List (List Char))
    (h : ∀ p ∈ ps, ∀ c ∈ p, isWs c = false) :
    countRunsAux true (joinSp ps) = (ps.filter (fun p => decide (¬ (p = [])))).length := by
  induction ps with
  | nil => rfl
  | cons p ps ih =>
    have hp : ∀ c ∈ p, isWs c = false := h p (by simp)
    have hrest : ∀ q ∈ ps, ∀ c ∈ q, isWs c = false := fun q hq => h q (by simp [hq])
    cases ps with
    | nil =>
      rw [show joinSp [p] = p from rfl, countRunsAux_true_all_nonWs p hp]
      by_cases hpe : p = [] <;> simp [hpe, List.filter]
    | cons q qs =>
      rw [show joinSp (p :: q :: qs) = p ++ ' ' :: joinSp (q :: qs) from rfl,
        countRunsAux_append, countRunsAux_true_all_nonWs p hp,
        show countRunsAux (endWs true p) (' ' :: joinSp (q :: qs)) =
          countRunsAux true (joinSp (q :: qs)) by simp [countRunsAux, isWs],
        ih hrest]
      by_cases hpe : p = []
      · simp [hpe, List.filter]
      · simp [hpe, List.filter]
        omega

theorem endWs_joinSp (ps : List (List Char))
    (hall : ∀ p ∈ ps, ∀ c ∈ p, isWs c = false)
    (hnonempty : ∀ p ∈ ps, ¬ (p = [])) :
    endWs true (joinSp ps) = if ps = [] then true else false := by
  induction ps with
  | nil => rfl
  | cons p ps ih =>
    have hp := hall p (by simp)
    have hpe := hnonempty p (by simp)
    cases ps with
    | nil =>
      rw [show joinSp [p] = p from rfl, endWs_all_nonWs p hp true]
      simp [hpe]
    | cons q qs =>
      rw [show joinSp (p :: q :: qs) = p ++ ' ' :: joinSp (q :: qs) from rfl, endWs_append,
        show endWs (endWs true p) (' ' :: joinSp (q :: qs)) =
          endWs true (joinSp (q :: qs)) by simp [endWs, isWs],
        ih (fun r hr => hall r (by simp [hr])) (fun r hr => hnonempty r (by simp [hr]))]
      simp

theorem all_of_filter_length_eq {α : Type} (l : List α) (f : α → Bool)
    (h : (l.filter f).length = l.length) : ∀ a ∈ l, f a = true := by
  simpa using h

theorem countRunsAux_true_dropWhile (l : List Char) :
    countRunsAux true (l.dropWhile isWs) = countRunsAux true l := by
  induction l with
  | nil => rfl
  | cons c cs ih =>
    cases hc : isWs c with
    | true => simpa [List.dropWhile, hc, countRunsAux] using ih
    | false => simp [List.dropWhile, hc]

theorem trimEnd_eq_nil_allWs (l : List Char) (h : trimEnd l = []) :
    ∀ c ∈ l, isWs c = true := by
  induction l with
  | nil => intro c hc; cases hc
  | cons c cs ih =>
    intro d hd
    cases hcs : trimEnd cs with
    | nil =>
      rw [trimEnd, hcs] at h
      cases hc : isWs c with
      | true =>
        rcases List.mem_cons.mp hd with rfl | hmem
        · exact hc
        · exact ih hcs d hmem
      | false => simp [hc] at h
    | cons r rs =>
      rw [trimEnd, hcs] at h
      cases h

theorem countRunsAux_allWs (l : List Char) (h : ∀ c ∈ l, isWs c = true) :
    ∀ b, countRunsAux b l = 0 := by
  induction l with
  | nil => intro b; rfl
  | cons c cs ih =>
    intro b
    have hc := h c (by simp)
    simp [countRunsAux, hc]
    exact ih (fun d hd => h d (by simp [hd])) true

theorem countRunsAux_trimEnd (l : List Char) :
    ∀ b, countRunsAux b (trimEnd l) = countRunsAux b l := by
  induction l with
  | nil => intro b; rfl
  | cons c cs ih =>
    intro b
    cases hcs : trimEnd cs with
    | nil =>
      have hws := trimEnd_eq_nil_allWs cs hcs
      cases hc : isWs c with
      | true =>
        rw [trimEnd, hcs]
        simp [countRunsAux, hc, countRunsAux_allWs cs hws]
      | false =>
        rw [trimEnd, hcs]
        simp [countRunsAux, hc, countRunsAux_allWs cs hws]
    | cons r rs =>
      have hstep : trimEnd (c :: cs) = c :: trimEnd cs := by simp [trimEnd, hcs]
      rw [hstep]
      cases hc : isWs c with
      | true =>
        simp only [countRunsAux, hc, if_true]
        exact ih true
      | false =>
        simp only [countRunsAux, hc, if_false, Bool.false_eq_true]
        rw [ih false]

theorem countRuns_trimStr (l : List Char) : countRuns (trimStr l) = countRuns l := by
  unfold countRuns trimStr
  rw [countRunsAux_trimEnd, countRunsAux_true_dropWhile]

theorem countRuns_le_split (l : List Char) : ∀ cur : List Char,
    countRunsAux false l + 1 ≤ (splitRunsAux isWs false cur l).length ∧
    countRunsAux true l ≤ (splitRunsAux isWs true cur l).length := by
  induction l with
  | nil => intro cur; constructor <;> simp [splitRunsAux, countRunsAux]
  | cons c cs ih =>
    intro cur
    cases hc : isWs c with
    | true =>
      have e1 : splitRunsAux isWs false cur (c :: cs) =
          cur.reverse :: splitRunsAux isWs true [] cs := by
        simp [splitRunsAux, hc]
      have e2 : splitRunsAux isWs true cur (c :: cs) =
          splitRunsAux isWs true [] cs := by
        simp [splitRunsAux, hc]
      have a1 : countRunsAux false (c :: cs) = countRunsAux true cs := by
        simp [countRunsAux, hc]
      have a2 : countRunsAux true (c :: cs) = countRunsAux true cs := by
        simp [countRunsAux, hc]
      have h2 := (ih []).2
      rw [e1, e2, a1, a2]
      simp only [List.length_cons]
      omega
    | false =>
      have e1 : ∀ b, splitRunsAux isWs b cur (c :: cs) =
          splitRunsAux isWs false (c :: cur) cs := by
        intro b
        cases b <;> simp [splitRunsAux, hc]
      have a1 : countRunsAux false (c :: cs) = countRunsAux false cs := by
        simp [countRunsAux, hc]
      have a2 : countRunsAux true (c :: cs) = 1 + countRunsAux false cs := by
        simp [countRunsAux, hc]
      have h1 := (ih (c :: cur)).1
      rw [e1 false, e1 true, a1, a2]
      omega

theorem countRuns_le_jsSplitWs (l : List Char) :
    countRuns l ≤ (jsSplitWs l).length := by
  have h1 := countRunsAux_true_le_false_succ l
  have h2 := (countRuns_le_split l []).1
  unfold countRuns jsSplitWs jsSplitOnRuns
  omega

theorem splitRunsAux_parts_nonWs (l : List Char) : ∀ (b : Bool) (cur : List Char),
    (∀ c ∈ cur, isWs c = false) →
    ∀ p ∈ splitRunsAux isWs b cur l, ∀ c ∈ p, isWs c = false := by
  induction l with
  | nil =>
    intro b cur hcur p hp c hc
    simp [splitRunsAux] at hp
    subst hp
    exact hcur c (List.mem_reverse.mp hc)
  | cons d ds ih =>
    intro b cur hcur p hp c hc
    cases hd : isWs d with
    | true =>
      cases b with
      | true =>
        simp [splitRunsAux, hd] at hp
        exact ih true [] (by simp) p hp c hc
      | false =>
        simp [splitRunsAux, hd] at hp
        rcases hp with rfl | hp
        · exact hcur c (List.mem_reverse.mp hc)
        · exact ih true [] (by simp) p hp c hc
    | false =>
      simp [splitRunsAux, hd] at hp
      refine ih false (d :: cur) ?_ p hp c hc
      intro x hx
      rcases List.mem_cons.mp hx with rfl | hxx
      · exact hd
      · exact hcur x hxx

theorem countWordsF_le_of_countRuns_le (x : List Char) (mw : Nat) (hmw : 1 ≤ mw)
    (hx : countRuns x ≤ mw) : countWordsF x ≤ mw := by
  unfold countWordsF
  split
  · omega
  · rw [countRuns_trimStr]
    exact hx

/-- The word count of the truncated text never exceeds the word budget:
the first maxWords whitespace-split parts are whitespace-free, joining
them with single spaces yields at most maxWords runs, taking a prefix
cannot increase the run count, and the appended ellipsis either merges
into the final run or adds one run in place of an empty part. -/
theorem countWordsF_truncate_le (text : List Char) (mw : Nat) (hmw : 1 ≤ mw) :
    countWordsF (truncateToMaxDuration text mw) ≤ mw := by
  unfold truncateToMaxDuration
  dsimp only
  split
  case isTrue hlen =>
    exact countWordsF_le_of_countRuns_le text mw hmw
      (le_trans (countRuns_le_jsSplitWs text) hlen)
  case isFalse hlen =>
    have hPws : ∀ p ∈ (jsSplitWs text).take mw, ∀ c ∈ p, isWs c = false := by
      intro p hp
      exact splitRunsAux_parts_nonWs text false [] (by simp) p
        ((List.take_sublist mw (jsSplitWs text)).mem hp)
    have hjoin : countRunsAux true (joinSp ((jsSplitWs text).take mw)) =
        (((jsSplitWs text).take mw).filter (fun p => decide (¬ (p = [])))).length :=
      countRuns_joinSp _ hPws
    have htklen : ((jsSplitWs text).take mw).length ≤ mw := by
      simp [List.length_take]
    have hfle : (((jsSplitWs text).take mw).filter
        (fun p => decide (¬ (p = [])))).length ≤ mw := by
      have h1 := List.length_filter_le (fun p => decide (¬ (p = [])))
        ((jsSplitWs text).take mw)
      omega
    split
    case isTrue hcut =>
      refine countWordsF_le_of_countRuns_le _ mw hmw ?_
      calc countRuns ((joinSp ((jsSplitWs text).take mw)).take _)
          ≤ countRuns (joinSp ((jsSplitWs text).take mw)) :=
            countRunsAux_take _ _ true
        _ ≤ mw := by unfold countRuns; rw [hjoin]; exact hfle
    case isFalse hcut =>
      refine countWordsF_le_of_countRuns_le _ mw hmw ?_
      have hdots : ∀ c ∈ ['.', '.', '.'], isWs c = false := by decide
      unfold countRuns
      rw [countRunsAux_append, hjoin]
      by_cases hall : (((jsSplitWs text).take mw).filter
          (fun p => decide (¬ (p = [])))).length = ((jsSplitWs text).take mw).length
      · have hne : ∀ p ∈ (jsSplitWs text).take mw, ¬ (p = []) := by
          intro p hp
          have := all_of_filter_length_eq _ _ hall p hp
          simpa using this
        have hPlen : ((jsSplitWs text).take mw).length = mw := by
          rw [List.length_take]
          omega
        have hPne : ¬ ((jsSplitWs text).take mw = []) := by
          intro h0
          rw [h0] at hPlen
          simp at hPlen
          omega
        rw [endWs_joinSp _ hPws hne, if_neg hPne,
          countRunsAux_false_all_nonWs _ hdots]
        omega
      · have h1 := List.length_filter_le (fun p => decide (¬ (p = [])))
          ((jsSplitWs text).take mw)
        have hb := countRunsAux_le_one_nonWs ['.', '.', '.'] hdots
          (endWs true (joinSp ((jsSplitWs text).take mw)))
        omega

theorem floor_maxWords :
    Nat.floor ((maxDurationSeconds : ℚ) / 60 * (wordsPerMinute : ℚ)) = 225 := by
  rw [show ((maxDurationSeconds : ℚ) / 60 * (wordsPerMinute : ℚ)) = ((225 : Nat) : ℚ) by
    norm_num [maxDurationSeconds, wordsPerMinute]]
  exact Nat.floor_natCast 225

theorem estimateDurationF_le (wc : Nat) (h : wc ≤ 225) :
    estimateDurationF wc ≤ maxDurationSeconds := by
  unfold estimateDurationF wordsPerMinute maxDurationSeconds
  rw [Nat.ceil_le]
  have hq : (wc : ℚ) ≤ 225 := by exact_mod_cast h
  push_cast
  linarith

theorem formatForTTS_duration_eq (F : FormatterFns) (post : RedditPost) :
    (formatForTTS F post).estimatedDuration =
      estimateDurationF (formatForTTS F post).wordCount := by
  unfold formatForTTS
  dsimp only
  split_ifs <;> rfl

theorem formatForTTS_duration_le (F : FormatterFns) (post : RedditPost) :
    (formatForTTS F post).estimatedDuration ≤ maxDurationSeconds := by
  unfold formatForTTS
  dsimp only
  split_ifs <;>
    first
      | exact le_of_not_lt (by assumption)
      | (rw [floor_maxWords]
         exact estimateDurationF_le _ (countWordsF_truncate_le _ 225 (by omega)))

theorem generateAudioGo_ok (fmt : FormattedText) (ps : List ProviderModel)
    (r : AudioGenResult) (h : (generateAudioGo fmt ps).result = .ok r) :
    r.duration = fmt.estimatedDuration ∧ r.sizeBytes = r.audioBuffer.length := by
  induction ps with
  | nil => simp [generateAudioGo] at h
  | cons p rest ih =>
    cases hres : (generateWithRetry p).result with
    | ok audio =>
      simp [generateAudioGo, hres] at h
      rw [← h]
      exact ⟨rfl, rfl⟩
    | error e =>
      simp [generateAudioGo, hres] at h
      exact ih h

/-- C10: the duration reported by generateAudio is not measured from the
synthesized audio bytes — it equals the estimate
ceil(wordCount / 150 * 60) computed from the formatted text's word count,
where the text was truncated beforehand so that this estimate never
exceeds 90 seconds — while sizeBytes always equals the length of the
audio buffer the provider returned. -/
theorem C10_duration_is_text_estimate (F : FormatterFns)
    (providers : List ProviderModel) (post : RedditPost) (r : AudioGenResult)
    (hok : (generateAudio F providers post).result = .ok r) :
    r.duration = estimateDurationF (formatForTTS F post).wordCount ∧
    r.duration ≤ maxDurationSeconds ∧
    r.sizeBytes = r.audioBuffer.length := by
  have h := generateAudioGo_ok (formatForTTS F post) providers r hok
  refine ⟨?_, ?_, h.2⟩
  · rw [h.1, formatForTTS_duration_eq]
  · rw [h.1]
    exact formatForTTS_duration_le F post

/-- C10 witness at a concrete formatter, provider and post. -/
theorem C10_duration_is_text_estimate_witness :
    ∃ r : AudioGenResult,
      (generateAudio exFmtFns [exGoodProvider] exShortPost).result = .ok r ∧
      r.duration = estimateDurationF (formatForTTS exFmtFns exShortPost).wordCount ∧
      r.duration ≤ maxDurationSeconds ∧
      r.sizeBytes = r.audioBuffer.length := by
  have hest : estimateDurationF 6 = 3 := by
    unfold estimateDurationF wordsPerMinute
    rw [Nat.ceil_eq_iff (by norm_num)]
    norm_num
  have hcomb : ("hello world").toList ++ '.' :: ' ' :: ("a few words here").toList =
      ("hello world. a few words here").toList := by decide
  have hwc : countWordsF (("hello world. a few words here").toList) = 6 := by decide
  have hfmt : formatForTTS exFmtFns exShortPost =
      { text := ("hello world. a few words here").toList
        wordCount := 6, estimatedDuration := 3 } := by
    unfold formatForTTS exFmtFns exShortPost
    dsimp only
    rw [if_pos (show ("a few words here").toList ≠ ([] : List Char) by decide)]
    rw [if_pos (show ("a few words here").toList ≠ ([] : List Char) by decide)]
    rw [hcomb, hwc, hest]
    rw [if_neg (show ¬ (maxDurationSeconds < 3) by decide)]
  have hok : (generateAudio exFmtFns [exGoodProvider] exShortPost).result =
      .ok { audioBuffer := [7, 7], provider := "inworld", voice := voiceFor "inworld"
            duration := 3, sizeBytes := 2 } := by
    unfold generateAudio
    rw [hfmt]
    rfl
  exact ⟨_, hok, C10_duration_is_text_estimate exFmtFns [exGoodProvider] exShortPost _ hok⟩

end TMM
